import Mathlib

/-!
# Verification of the YT-DeepReSearch job-claiming and checkpointing core

Shallow embedding of the scheduling core of the repository:

* `src/src/orchestrator/job_queue.py` — the Excel-backed `JobQueue`
  (`get_next_pending_topic`, `claim_topic`, `update_status`);
* `src/src/utils/helpers.py` — `retry_with_backoff`;
* `src/src/utils/state.py` — `State`, `to_dict` / `from_dict`,
  `save_state`;
* `src/src/orchestrator/workflow.py` — `OrchestratorWorkflow.execute_phases`
  and `process_topic`;
* `src/src/phases/phase2_parallel_research.py` — `Phase2ParallelResearch.execute`.

Modelling conventions:

* The Excel worksheet is a `List Row`, one `Row` per data row (header
  omitted); an empty cell is `none`.
* Timestamps are integer seconds (`Int`); the source stores ISO strings and
  compares the parsed `datetime`s, so only the elapsed-seconds arithmetic is
  relevant.  Floats that the queue merely stores and never computes with
  (duration, quality score) are modelled as `Int`.
* The remote Perplexity call made by a phase-2 worker is an external
  collaborator and is passed in as a function `Query → Except String _`;
  an `Except.error` models the worker raising an exception.
* Thread-pool completion order in phase 2 is modelled by an explicit
  permutation of the submission indices.
-/

namespace YTDR

/-! ## Job queue rows (`job_queue.py`) -/

/-- Status strings used by `JobQueue`. -/
def STATUS_PENDING : String := "Pending"

def STATUS_IN_PROGRESS : String := "In_Progress"

def STATUS_COMPLETED : String := "Completed"

def STATUS_FAILED : String := "Failed"

/-- One data row of the `Topics` worksheet.  Column order follows
`JobQueue.COL_*`; an empty cell is `none`.  `tsStart` is the parsed
`Timestamp_Start` in seconds (the code stores an ISO string and parses it
back with `datetime.fromisoformat`). -/
structure Row where
  topic : Option String
  status : Option String
  tsStart : Option Int
  tsEnd : Option String
  duration : Option Int
  quality : Option Int
  errorMsg : Option String
  notes : Option String
  deriving DecidableEq, Repr

/-- A fresh `Pending` row as written by `add_topic` / the sample rows. -/
def pendingRow (t : String) : Row :=
  ⟨some t, some STATUS_PENDING, none, none, none, none, none, none⟩

/-- `if not topic: continue` — the row is skipped when the topic cell is
empty (`None` or `""`, both falsy in Python). -/
def rowHasTopic (r : Row) : Bool :=
  match r.topic with
  | none => false
  | some t => t ≠ ""

/-- Stale-lock reset applied by `get_next_pending_topic`: status back to
`Pending`, start timestamp cleared, a note recorded. -/
def resetStale (now : Int) (r : Row) : Row :=
  { r with status := some STATUS_PENDING,
           tsStart := none,
           notes := some ("Reset from stale lock at " ++ toString now) }

/-- `JobQueue.get_next_pending_topic`: scan rows top to bottom; return the
first `Pending` topic unchanged, or reset and return the first
`In_Progress` topic whose elapsed time strictly exceeds `lockTimeout`.
Returns the chosen topic (if any) together with the worksheet as saved on
disk afterwards. -/
def getNextPendingTopic (rows : List Row) (now lockTimeout : Int) :
    Option String × List Row :=
  match rows with
  | [] => (none, [])
  | r :: rest =>
    if rowHasTopic r then
      if r.status = some STATUS_PENDING then
        (r.topic, r :: rest)
      else
        match r.status, r.tsStart with
        | some s, some t0 =>
          if s = STATUS_IN_PROGRESS ∧ now - t0 > lockTimeout then
            (r.topic, resetStale now r :: rest)
          else
            let (res, rest') := getNextPendingTopic rest now lockTimeout
            (res, r :: rest')
        | _, _ =>
          let (res, rest') := getNextPendingTopic rest now lockTimeout
          (res, r :: rest')
    else
      let (res, rest') := getNextPendingTopic rest now lockTimeout
      (res, r :: rest')

/-- Index of the first row whose topic cell equals `name`
(`if topic == topic_name` in the claim/update loops). -/
def findTopicRow (rows : List Row) (name : String) : Option Nat :=
  match rows with
  | [] => none
  | r :: rest =>
    if r.topic = some name then some 0
    else (findTopicRow rest name).map (· + 1)

/-- Status cell of row `i`, as read by the re-check in `claim_topic`. -/
def rowStatus (rows : List Row) (i : Nat) : Option String :=
  ((rows.get? i).map Row.status).join

/-- Replace row `i` by `f` applied to it (an `openpyxl` cell write). -/
def modifyRow (rows : List Row) (i : Nat) (f : Row → Row) : List Row :=
  match rows, i with
  | [], _ => []
  | r :: rest, 0 => f r :: rest
  | r :: rest, n + 1 => r :: modifyRow rest n f

/-- The cell writes performed by a successful `claim_topic`. -/
def claimWrite (now : Int) (r : Row) : Row :=
  { r with status := some STATUS_IN_PROGRESS, tsStart := some now }

/-- `JobQueue.claim_topic`, sequential run (no concurrent writer between
the read phase and the write phase, so both `load_workbook` calls read the
same file).  Returns the boolean result and the file contents afterwards. -/
def claimTopic (rows : List Row) (name : String) (now : Int) :
    Bool × List Row :=
  -- Read Phase: load and find the topic
  match findTopicRow rows name with
  | none => (false, rows)
  | some i =>
    -- Check Phase: verify status is still Pending
    if rowStatus rows i ≠ some STATUS_PENDING then (false, rows)
    else
      -- Write Phase: reload, re-check at the remembered row index, write
      if rowStatus rows i ≠ some STATUS_PENDING then (false, rows)
      else (true, modifyRow rows i (claimWrite now))

/-- The field updates performed by `JobQueue.update_status`.  Optional
arguments are written only when Python finds them truthy: strings must be
non-empty (`if timestamp_end:`, `if error_message:`, `if notes:`), the
numeric fields only non-`None` (`if duration_seconds is not None:`). -/
def applyUpdate (status : String) (tsEnd : Option String)
    (duration quality : Option Int) (errMsg notes : Option String)
    (r : Row) : Row :=
  let r := { r with status := some status }
  let r := match tsEnd with
    | some s => if s ≠ "" then { r with tsEnd := some s } else r
    | none => r
  let r := match duration with
    | some d => { r with duration := some d }
    | none => r
  let r := match quality with
    | some q => { r with quality := some q }
    | none => r
  let r := match errMsg with
    | some e => if e ≠ "" then { r with errorMsg := some e } else r
    | none => r
  match notes with
  | some n => if n ≠ "" then { r with notes := some n } else r
  | none => r

/-- `JobQueue.update_status`: find the row whose topic equals `name`
(whatever its current status); write the new status and whichever optional
fields were supplied; save.  Returns `false` (error logged, file untouched)
only when no row carries the topic. -/
def updateStatus (rows : List Row) (name status : String)
    (tsEnd : Option String) (duration quality : Option Int)
    (errMsg notes : Option String) : Bool × List Row :=
  match findTopicRow rows name with
  | none => (false, rows)
  | some i =>
    (true, modifyRow rows i (applyUpdate status tsEnd duration quality errMsg notes))

/-! ## Concurrent `claim_topic` (for claim exclusivity)

`claim_topic` performs three separate file operations with no lock held in
between: (1) `load_workbook` + find + status check (read phase), (2) a
second `load_workbook` + status re-check (the workbook is kept in memory),
(3) `wb.save` of that in-memory workbook with the claim written into it.
Another process may read or write the file between any two of these
operations.  We model each caller as a three-step process over the shared
file and execute an explicit interleaving. -/

/-- Program counter and local memory of one in-flight `claim_topic` call. -/
structure ClaimerSt where
  /-- 0 = before read phase, 1 = after read phase, 2 = after reload and
  re-check (holding the reloaded workbook), 3 = returned. -/
  pc : Nat
  /-- Row index remembered from the read phase. -/
  row : Nat
  /-- The workbook loaded at step 2 and saved at step 3. -/
  wb : List Row
  /-- Return value, once the call has finished. -/
  result : Option Bool
  deriving Repr, DecidableEq

/-- A caller that has not started its `claim_topic` yet. -/
def freshClaimer : ClaimerSt := ⟨0, 0, [], none⟩

/-- One atomic step of a `claim_topic` call against the shared file.
Returns the caller's new local state and the file contents afterwards. -/
def claimStep (name : String) (now : Int) (shared : List Row)
    (c : ClaimerSt) : ClaimerSt × List Row :=
  match c.pc with
  | 0 =>
    -- Read + Check Phase: load the file, find the row, check Pending.
    match findTopicRow shared name with
    | none => ({ c with pc := 3, result := some false }, shared)
    | some i =>
      if rowStatus shared i = some STATUS_PENDING then
        ({ c with pc := 1, row := i }, shared)
      else ({ c with pc := 3, result := some false }, shared)
  | 1 =>
    -- Write Phase, part 1: reload the file, re-check the status cell.
    if rowStatus shared c.row = some STATUS_PENDING then
      ({ c with pc := 2, wb := shared }, shared)
    else ({ c with pc := 3, result := some false }, shared)
  | 2 =>
    -- Write Phase, part 2: write the claim into the held workbook, save.
    ({ c with pc := 3, result := some true },
      modifyRow c.wb c.row (claimWrite now))
  | _ => (c, shared)

/-- Run two concurrent `claim_topic name` calls A and B under an explicit
schedule: `true` advances A by one step, `false` advances B. -/
def runTwoClaims (name : String) (nowA nowB : Int)
    (sched : List Bool) (shared : List Row) :
    ClaimerSt × ClaimerSt × List Row :=
  go sched shared freshClaimer freshClaimer
where
  go : List Bool → List Row → ClaimerSt → ClaimerSt →
      ClaimerSt × ClaimerSt × List Row
  | [], s, a, b => (a, b, s)
  | true :: rest, s, a, b =>
    let (a', s') := claimStep name nowA s a
    go rest s' a' b
  | false :: rest, s, a, b =>
    let (b', s') := claimStep name nowB s b
    go rest s' a b'

/-! ## `retry_with_backoff` (`utils/helpers.py`) -/

/-- What a finished `retry_with_backoff`-wrapped call yields: the value or
the raised exception (`Except.error none` models `raise None`, reachable
only with `max_retries = 0`), the number of times the wrapped function was
invoked, and the log lines emitted by the retry loop. -/
structure RetryOutcome (α : Type) where
  result : Except (Option String) α
  calls : Nat
  logs : List String
  deriving Repr

/-- The `logger.warning` line emitted after a non-final failed attempt. -/
def retryWarnMsg (attempt maxRetries : Nat) (fname e : String)
    (delay : Int) : String :=
  "Attempt " ++ toString attempt ++ "/" ++ toString maxRetries ++
    " failed for " ++ fname ++ ": " ++ e ++ ". Retrying in " ++
    toString delay ++ " seconds..."

/-- The `logger.error` line emitted when the final attempt fails. -/
def retryFailMsg (maxRetries : Nat) (fname e : String) : String :=
  "All " ++ toString maxRetries ++ " attempts failed for " ++ fname ++
    ": " ++ e

/-- Loop body of `retry_with_backoff`: `remaining` attempts left,
attempt number `maxRetries - remaining` (0-based) next. -/
def retryGo (fname : String) (maxRetries : Nat) (f : Nat → Except String α) :
    Nat → Int → Int → Option String → Nat → List String → RetryOutcome α
  | 0, _, _, last, calls, logs => ⟨.error last, calls, logs⟩
  | remaining + 1, delay, factor, _, calls, logs =>
    match f (maxRetries - (remaining + 1)) with
    | .ok v => ⟨.ok v, calls + 1, logs⟩
    | .error e =>
      if remaining > 0 then
        retryGo fname maxRetries f remaining (delay * factor) factor (some e)
          (calls + 1)
          (logs ++ [retryWarnMsg (maxRetries - remaining) maxRetries fname e delay])
      else
        retryGo fname maxRetries f 0 delay factor (some e) (calls + 1)
          (logs ++ [retryFailMsg maxRetries fname e])

/-- `retry_with_backoff(max_retries, initial_delay, backoff_factor)`
applied to a function `fname`.  `f n` is the outcome of the wrapped
function's `(n+1)`-th invocation (`Except.error` models it raising). -/
def retryWithBackoff (maxRetries : Nat) (initialDelay backoffFactor : Int)
    (fname : String) (f : Nat → Except String α) : RetryOutcome α :=
  retryGo fname maxRetries f maxRetries initialDelay backoffFactor none 0 []

/-! ## Workspace `State` (`utils/state.py`) -/

/-- A value stored in `phase_outputs`: the placeholder dictionaries written
by `execute_phase_1` … `execute_phase_8` (phase 8 adds a quality score). -/
structure PhaseOutput where
  status : String
  message : String
  qualityScore : Option Int
  deriving Repr, DecidableEq

/-- `utils.state.State`.  `workspace_path` is kept as its (normalised)
string form; `datetime` timestamps are opaque strings. -/
structure State where
  topic : String
  workspace_path : String
  current_phase : String
  phases_completed : List String
  phase_outputs : List (String × PhaseOutput)
  metrics : List (String × String)
  errors : List String
  created_at : String
  updated_at : String
  deriving Repr, DecidableEq

/-- Python's `x or default` for an optional string: `None` and `""` are
both falsy and yield the default. -/
def pyOrStr (x : Option String) (default : String) : String :=
  match x with
  | none => default
  | some s => if s = "" then default else s

/-- `State.__init__`.  Arguments appear in the Python parameter order
(with the implicit clock `now` appended): passing `"Phase_0"` and `none`s
reproduces the Python defaults.  `now` is the
`datetime.now(timezone.utc).isoformat()` value used when a timestamp
argument is falsy.  (`phases_completed or []` and friends map both `None`
and an empty collection to the empty collection, which the `Option.getD`
composition reproduces.) -/
def State.init (topic workspace_path : String)
    (current_phase : String)
    (phases_completed : Option (List String))
    (phase_outputs : Option (List (String × PhaseOutput)))
    (metrics : Option (List (String × String)))
    (errors : Option (List String))
    (created_at : Option String)
    (updated_at : Option String) (now : String) : State :=
  { topic := topic
    workspace_path := workspace_path
    current_phase := current_phase
    phases_completed := phases_completed.getD []
    phase_outputs := phase_outputs.getD []
    metrics := metrics.getD []
    errors := errors.getD []
    created_at := pyOrStr created_at now
    updated_at := pyOrStr updated_at now }

/-- The dictionary produced by `State.to_dict`.  `from_dict` reads the
non-mandatory keys with `data.get(...)`, so those fields are `Option`s
(`none` = key absent). -/
structure StateDict where
  topic : String
  workspace_path : String
  current_phase : Option String
  phases_completed : Option (List String)
  phase_outputs : Option (List (String × PhaseOutput))
  metrics : Option (List (String × String))
  errors : Option (List String)
  created_at : Option String
  updated_at : Option String
  deriving Repr, DecidableEq

/-- `State.to_dict`: every field serialised under its own key
(`workspace_path` via `str(...)`, the identity in this embedding). -/
def State.toDict (s : State) : StateDict :=
  { topic := s.topic
    workspace_path := s.workspace_path
    current_phase := some s.current_phase
    phases_completed := some s.phases_completed
    phase_outputs := some s.phase_outputs
    metrics := some s.metrics
    errors := some s.errors
    created_at := some s.created_at
    updated_at := some s.updated_at }

/-- `State.from_dict`: mandatory `data["topic"]` / `data["workspace_path"]`,
`data.get` with defaults for the rest, all passed to `State.__init__`
(which applies its own `or` fallbacks; `now` is its clock). -/
def State.fromDict (d : StateDict) (now : String) : State :=
  State.init d.topic d.workspace_path
    (d.current_phase.getD "Phase_0")
    (some (d.phases_completed.getD []))
    (some (d.phase_outputs.getD []))
    (some (d.metrics.getD []))
    (some (d.errors.getD []))
    d.created_at
    d.updated_at
    now

/-- `save_state`: refresh `updated_at`, then persist the whole record
(the snapshot written to `state.json`). -/
def saveState (now : String) (s : State) : State :=
  { s with updated_at := now }

/-- Python dictionary assignment `d[k] = v` on an association list:
replace the value when the key is present, append otherwise. -/
def dictSet {α : Type} (l : List (String × α)) (k : String) (v : α) :
    List (String × α) :=
  if l.any (fun p => p.1 = k) then
    l.map (fun p => if p.1 = k then (k, v) else p)
  else l ++ [(k, v)]

/-- Python dictionary lookup `d.get(k)`. -/
def dictGet {α : Type} (l : List (String × α)) (k : String) : Option α :=
  (l.find? (fun p => p.1 = k)).map (·.2)

/-! ## `OrchestratorWorkflow` (`orchestrator/workflow.py`) -/

/-- The placeholder output written by `execute_phase_n`:
`{"status": "placeholder", "message": "Phase n not yet implemented"}`, with
`"quality_score": 85.0` added by phase 8. -/
def placeholderOutput (n : Nat) : PhaseOutput :=
  { status := "placeholder"
    message := "Phase " ++ toString n ++ " not yet implemented"
    qualityScore := if n = 8 then some 85 else none }

/-- `execute_phase_n`: store the placeholder under key `"phase_n"`. -/
def execPhase (n : Nat) (st : State) : State :=
  { st with
    phase_outputs :=
      dictSet st.phase_outputs ("phase_" ++ toString n) (placeholderOutput n) }

/-- The `phases` list built inside `execute_phases`. -/
def pipelinePhases : List (String × (State → State)) :=
  [("Phase_1", execPhase 1), ("Phase_2", execPhase 2),
   ("Phase_3", execPhase 3), ("Phase_4", execPhase 4),
   ("Phase_5", execPhase 5), ("Phase_6", execPhase 6),
   ("Phase_7", execPhase 7), ("Phase_8", execPhase 8)]

/-- Loop body of `execute_phases`.  For each `(phase_name, phase_func)` the
code sets `state.current_phase = phase_name`, saves, runs the handler,
appends the name to `phases_completed`, and saves again.  The placeholder
handlers are total, so the `except` branch (record error, re-raise) is
unreachable.  Returns the final state, the persisted snapshots in write
order, and the names of the phases that were executed.  All saves in one
run are stamped with the same clock value `now`. -/
def executePhasesGo (now : String) :
    List (String × (State → State)) → State → State × List State × List String
  | [], st => (st, [], [])
  | (name, f) :: rest, st =>
    let st1 := saveState now { st with current_phase := name }
    let st2 := f st1
    let st3 := saveState now
      { st2 with phases_completed := st2.phases_completed ++ [name] }
    let (fin, saves, execd) := executePhasesGo now rest st3
    (fin, st1 :: st3 :: saves, name :: execd)

/-- `OrchestratorWorkflow.execute_phases`. -/
def executePhases (now : String) (st : State) :
    State × List State × List String :=
  executePhasesGo now pipelinePhases st

/-- The workspace store: for each workspace directory, the current contents
of its `state.json`. -/
abbrev WorkspaceEnv := List (String × State)

/-- `OrchestratorWorkflow.process_topic` on the happy path.  `env` holds
the persisted workspace states before the call and `rows` the job-queue
worksheet; `freshPath` is the new UUID directory minted by
`create_workspace` (a fresh workspace is always created — the function
never reads `env` or calls `load_state`).  `endTs`/`durationS` stand for
the wall-clock bookkeeping of the final `update_status` call, whose boolean
result the code discards.  Returns the workspace store, the worksheet, the
executed phase names, and the boolean returned to the caller. -/
def processTopic (env : WorkspaceEnv) (rows : List Row)
    (topic freshPath : String) (now endTs : String) (durationS : Int) :
    WorkspaceEnv × List Row × List String × Bool :=
  let st0 := saveState now
    (State.init topic freshPath "Phase_0" none none none none none none now)
  let env1 := dictSet env freshPath st0
  let (stF, saves, execd) := executePhases now st0
  let envF := saves.foldl (fun e s => dictSet e freshPath s) env1
  let quality :=
    match dictGet stF.phase_outputs "phase_8" with
    | some o => o.qualityScore.getD 0
    | none => 0
  let (_ok, rows') := updateStatus rows topic STATUS_COMPLETED (some endTs)
    (some durationS) (some quality) none
    (some ("Completed successfully. Workspace: " ++ freshPath))
  (envF, rows', execd, true)

/-! ## `Phase2ParallelResearch` (`phases/phase2_parallel_research.py`) -/

/-- A sub-query dictionary from phase 1 (`query` and `focus` keys). -/
structure Query where
  query : String
  focus : String
  deriving Repr, DecidableEq

/-- One element of `research_results`: a success entry carries content,
citations, word count and focus; a failure entry (built in the `except`
branch of the collection loop) carries empty content, no citations and the
exception text. -/
structure ResultEntry where
  query : Query
  content : String
  citations : List String
  word_count : Option Nat
  focus : Option String
  error : Option String
  deriving Repr, DecidableEq

/-- `len(content.split())`: whitespace-separated word count. -/
def countWords (s : String) : Nat :=
  ((s.split fun c => c = ' ' ∨ c = '\n' ∨ c = '\t').filter (· ≠ "")).length

/-- `Phase2ParallelResearch._research_query`: run the (external) remote
search for one sub-query and shape the success entry; a raised exception
(`Except.error`) is logged and re-raised unchanged. -/
def researchQuery (outcome : Query → Except String (String × List String))
    (q : Query) : Except String ResultEntry :=
  match outcome q with
  | .ok (content, citations) =>
    .ok ⟨q, content, citations, some (countWords content), some q.focus, none⟩
  | .error e => .error e

/-- What the result-collection loop appends for one finished future:
the worker's entry on success, the error entry
`{"query": q, "content": "", "citations": [], "error": str(e)}` when the
worker raised. -/
def settleQuery (outcome : Query → Except String (String × List String))
    (q : Query) : ResultEntry :=
  match researchQuery outcome q with
  | .ok r => r
  | .error e => ⟨q, "", [], none, none, some e⟩

/-- The `data` sub-dictionary of a completed phase-2 result. -/
structure Phase2Data where
  research_results : List ResultEntry
  total_queries : Nat
  successful_queries : Nat
  deriving Repr, DecidableEq

/-- The dictionary returned by `Phase2ParallelResearch.execute`: either
`{"phase": 2, "status": "failed", "error": ...}` or
`{"phase": 2, "status": "completed", "data": {...}}`. -/
structure Phase2Output where
  phase : Nat
  status : String
  error : Option String
  data : Option Phase2Data
  deriving Repr, DecidableEq

/-- `Phase2ParallelResearch.execute` on the sub-query list extracted from
phase 1's output.  The thread pool completes the submitted futures in some
order `completionOrder` (a permutation of the submission indices
`0 … n-1`); `as_completed` hands them back, and thus the results list is
built, in exactly that order.  A worker that raised contributes its error
entry; `successful_queries` counts entries whose `error` field is falsy
(absent or the empty string). -/
def phase2Execute (outcome : Query → Except String (String × List String))
    (subQueries : List Query) (completionOrder : List Nat) : Phase2Output :=
  if subQueries.isEmpty then
    ⟨2, "failed", some "No sub-queries provided", none⟩
  else
    let results := completionOrder.filterMap
      (fun i => (subQueries.get? i).map (settleQuery outcome))
    ⟨2, "completed", none,
      some ⟨results, subQueries.length,
        (results.filter fun r => (r.error.getD "") = "").length⟩⟩

/-! ## Specification-side derived notions -/

/-- The eight phase names, in pipeline order. -/
def phaseNames : List String := pipelinePhases.map Prod.fst

/-- The smallest (first in pipeline order) phase not yet recorded as
completed; `none` once all eight are. -/
def smallestNotCompleted (completed : List String) : Option String :=
  phaseNames.find? (fun p => !(completed.contains p))

/-- A row `get_next_pending_topic` may hand out: its topic cell is truthy
and it is either `Pending`, or `In_Progress` with a start timestamp whose
age strictly exceeds the lock timeout. -/
def claimableRow (now lockTimeout : Int) (r : Row) : Bool :=
  rowHasTopic r &&
    (r.status = some STATUS_PENDING ||
      (r.status = some STATUS_IN_PROGRESS &&
        match r.tsStart with
        | some t0 => now - t0 > lockTimeout
        | none => false))

/-- Position and contents of the first claimable row. -/
def firstClaimable (now lockTimeout : Int) : List Row → Option (Nat × Row)
  | [] => none
  | r :: rest =>
    if claimableRow now lockTimeout r then some (0, r)
    else (firstClaimable now lockTimeout rest).map (fun p => (p.1 + 1, p.2))

/-- An `In_Progress` row claimed at time `ts`. -/
def inProgressRow (t : String) (ts : Int) : Row :=
  ⟨some t, some STATUS_IN_PROGRESS, some ts, none, none, none, none, none⟩

/-- A sample remote-research behaviour for concrete runs: every query
succeeds with its own text as content. -/
def echoOutcome : Query → Except String (String × List String) :=
  fun q => .ok (q.query, [])

/-! ## Supporting lemmas -/

/-- `getNextPendingTopic` is governed by the first claimable row: nothing
and no change when there is none; otherwise that row's topic, with the row
reset exactly when it was a stale `In_Progress` rather than `Pending`. -/
theorem getNextPendingTopic_eq (rows : List Row) (now lt : Int) :
    getNextPendingTopic rows now lt =
      match firstClaimable now lt rows with
      | none => (none, rows)
      | some (i, r) =>
        (r.topic, if r.status = some STATUS_PENDING then rows
                  else modifyRow rows i (resetStale now)) := by
  induction rows with
  | nil => rfl
  | cons r rest ih =>
    by_cases ht : rowHasTopic r
    · by_cases hp : r.status = some STATUS_PENDING
      · simp [getNextPendingTopic, firstClaimable, claimableRow, ht, hp]
      · rcases hs : r.status with _ | s
        · simp only [getNextPendingTopic, firstClaimable, claimableRow, ht,
            hp, hs, ih]
          cases hfc : firstClaimable now lt rest with
          | none => simp [hfc]
          | some p =>
            obtain ⟨i, r'⟩ := p
            by_cases hps : r'.status = some STATUS_PENDING <;>
              simp [hfc, hps, modifyRow]
        · have hsp : s ≠ STATUS_PENDING := by
            rintro rfl; exact hp hs
          rcases hts : r.tsStart with _ | t0
          · simp only [getNextPendingTopic, firstClaimable, claimableRow, ht,
              hp, hs, hts, ih]
            cases hfc : firstClaimable now lt rest with
            | none => simp [hfc, hsp]
            | some p =>
              obtain ⟨i, r'⟩ := p
              by_cases hps : r'.status = some STATUS_PENDING <;>
                simp [hfc, hsp, hps, modifyRow]
          · by_cases hstale : s = STATUS_IN_PROGRESS ∧ now - t0 > lt
            · obtain ⟨hs1, hs2⟩ := hstale
              subst hs1
              simp [getNextPendingTopic, firstClaimable, claimableRow, ht,
                hp, hs, hts, hs2, modifyRow, hsp, STATUS_IN_PROGRESS,
                STATUS_PENDING]
            · simp only [getNextPendingTopic, firstClaimable, claimableRow,
                ht, hp, hs, hts, ih]
              have hcl :
                  ¬(s = STATUS_IN_PROGRESS ∧
                    decide (now - t0 > lt) = true) := by
                intro h
                exact hstale ⟨h.1, of_decide_eq_true h.2⟩
              cases hfc : firstClaimable now lt rest with
              | none => simp [hfc, hsp, hstale, hcl]
              | some p =>
                obtain ⟨i, r'⟩ := p
                by_cases hps : r'.status = some STATUS_PENDING <;>
                  simp [hfc, hsp, hstale, hcl, hps, modifyRow]
    · simp only [getNextPendingTopic, firstClaimable, claimableRow, ht, ih]
      cases hfc : firstClaimable now lt rest with
      | none => simp [hfc]
      | some p =>
        obtain ⟨i, r'⟩ := p
        by_cases hps : r'.status = some STATUS_PENDING <;>
          simp [hfc, hps, modifyRow]

/-- The first claimable row really is a claimable row of the list. -/
theorem firstClaimable_mem (now lt : Int) :
    ∀ (rows : List Row) (i : Nat) (r : Row),
      firstClaimable now lt rows = some (i, r) →
      rows.get? i = some r ∧ claimableRow now lt r = true := by
  intro rows
  induction rows with
  | nil => intro i r h; simp [firstClaimable] at h
  | cons x rest ih =>
    intro i r h
    by_cases hc : claimableRow now lt x
    · simp [firstClaimable, hc] at h
      obtain ⟨hi, hr⟩ := h
      subst hi; subst hr
      exact ⟨rfl, hc⟩
    · simp [firstClaimable, hc] at h
      cases hfc : firstClaimable now lt rest with
      | none => rw [hfc] at h; simp at h
      | some p =>
        obtain ⟨j, r'⟩ := p
        rw [hfc] at h
        obtain ⟨a, hsome, hai⟩ := h
        injection hsome with hsome
        injection hsome with h1 h2
        subst h2
        subst h1
        obtain ⟨hg, hcl⟩ := ih j r' hfc
        refine ⟨?_, hcl⟩
        rw [← hai]
        simpa using hg

/-- `modifyRow` leaves every other row in place. -/
theorem modifyRow_get?_ne (f : Row → Row) :
    ∀ (rows : List Row) (i j : Nat), i ≠ j →
      (modifyRow rows i f).get? j = rows.get? j := by
  intro rows
  induction rows with
  | nil => intro i j _; simp [modifyRow]
  | cons x rest ih =>
    intro i j hij
    cases i with
    | zero =>
      cases j with
      | zero => exact absurd rfl hij
      | succ j' => simp [modifyRow]
    | succ i' =>
      cases j with
      | zero => simp [modifyRow]
      | succ j' =>
        simp only [modifyRow, List.get?]
        exact ih i' j' (fun h => hij (by rw [h]))

/-- Picking elements of `l` through a list of in-range indices loses
nothing: the picked list is as long as the index list and its `j`-th entry
is the image of `l`'s entry at the `j`-th index. -/
theorem filterMap_pick {α β : Type} (l : List α) (g : α → β) :
    ∀ idx : List Nat, (∀ i ∈ idx, i < l.length) →
      (idx.filterMap (fun i => (l.get? i).map g)).length = idx.length ∧
      ∀ j i, idx.get? j = some i →
        (idx.filterMap (fun i => (l.get? i).map g)).get? j
          = (l.get? i).map g := by
  intro idx
  induction idx with
  | nil => intro _; simp
  | cons i rest ih =>
    intro h
    have hi : i < l.length := h i (List.mem_cons_self i rest)
    have hrest : ∀ i ∈ rest, i < l.length :=
      fun a ha => h a (List.mem_cons_of_mem i ha)
    obtain ⟨ihl, ihg⟩ := ih hrest
    have hsome : l.get? i = some (l.get ⟨i, hi⟩) := List.get?_eq_get hi
    have hred : List.filterMap (fun i => Option.map g (l.get? i)) (i :: rest)
        = g (l.get ⟨i, hi⟩) ::
          List.filterMap (fun i => Option.map g (l.get? i)) rest := by
      rw [List.filterMap_cons, hsome, Option.map_some']
    constructor
    · rw [hred, List.length_cons, ihl, List.length_cons]
    · intro j a hj
      cases j with
      | zero =>
        injection hj with hj
        subst hj
        rw [hred, hsome]
        rfl
      | succ j' =>
        simp only [List.get?] at hj
        rw [hred]
        simpa using ihg j' a hj

/-- Picking through the full index range `0 … l.length - 1` in order is
just mapping over `l`. -/
theorem filterMap_pick_range {α β : Type} (g : α → β) :
    ∀ l : List α,
      (List.range l.length).filterMap (fun i => (l.get? i).map g)
        = l.map g := by
  intro l
  induction l with
  | nil => simp
  | cons x xs ih =>
    rw [List.length_cons, List.range_succ_eq_map, List.filterMap_cons]
    simp only [List.get?, Option.map_some']
    rw [List.filterMap_map]
    have : ((fun i => ((x :: xs).get? i).map g) ∘ Nat.succ)
        = fun i => (xs.get? i).map g := by
      funext i; rfl
    rw [this, ih, List.map_cons]

/-- The claim/update scan misses exactly when no row carries the topic. -/
theorem findTopicRow_none_iff (name : String) :
    ∀ rows : List Row,
      findTopicRow rows name = none ↔ ∀ r ∈ rows, r.topic ≠ some name := by
  intro rows
  induction rows with
  | nil => simp [findTopicRow]
  | cons x rest ih =>
    by_cases hx : x.topic = some name
    · simp [findTopicRow, hx]
    · simp [findTopicRow, hx, ih]

/-- A found row index is in range and its row carries the topic. -/
theorem findTopicRow_some (name : String) :
    ∀ (rows : List Row) (i : Nat),
      findTopicRow rows name = some i →
      ∃ r, rows.get? i = some r ∧ r.topic = some name := by
  intro rows
  induction rows with
  | nil => intro i h; simp [findTopicRow] at h
  | cons x rest ih =>
    intro i h
    by_cases hx : x.topic = some name
    · simp [findTopicRow, hx] at h
      subst h
      exact ⟨x, rfl, hx⟩
    · simp only [findTopicRow, if_neg hx] at h
      cases hfr : findTopicRow rest name with
      | none => rw [hfr] at h; simp at h
      | some j =>
        rw [hfr, Option.map_some'] at h
        injection h with h
        subst h
        obtain ⟨r, hg, ht⟩ := ih j hfr
        exact ⟨r, by simpa using hg, ht⟩

/-- `modifyRow` at an in-range index is `List.set` with the new row. -/
theorem modifyRow_eq_set (f : Row → Row) :
    ∀ (rows : List Row) (i : Nat) (r : Row), rows.get? i = some r →
      modifyRow rows i f = rows.set i (f r) := by
  intro rows
  induction rows with
  | nil => intro i r h; simp at h
  | cons x rest ih =>
    intro i r h
    cases i with
    | zero =>
      injection h with h
      subst h
      rfl
    | succ i' =>
      simp only [List.get?] at h
      simp [modifyRow, List.set, ih i' r h]

/-! ## Claim theorems -/

/-- Claim C1: claim exclusivity — two concurrent `claim_topic` calls must
never both succeed on the same topic.  The code violates this: with a
single `Pending` row, the interleaving in which both callers pass their
read phase and their re-check before either saves lets BOTH return `true`,
and the second save overwrites the first claim's timestamp.  (The SQL
variant `TopicRepository.fetch_next_topic` relies on the database's
`FOR UPDATE SKIP LOCKED`; the Excel `JobQueue` offers no such protection,
as its own in-line comment concedes.) -/
theorem claim_topic_race_both_succeed :
    (runTwoClaims "T" 100 200 [true, false, true, false, true, false]
        [pendingRow "T"]).1.result = some true ∧
    (runTwoClaims "T" 100 200 [true, false, true, false, true, false]
        [pendingRow "T"]).2.1.result = some true ∧
    (runTwoClaims "T" 100 200 [true, false, true, false, true, false]
        [pendingRow "T"]).2.2 = [inProgressRow "T" 200] := by
  exact ⟨rfl, rfl, rfl⟩

/-- A workspace state left behind by an earlier, interrupted run of topic
`T`: phases 1–3 completed, about to run phase 4. -/
def priorState : State :=
  { topic := "T"
    workspace_path := "projects/w-old"
    current_phase := "Phase_4"
    phases_completed := ["Phase_1", "Phase_2", "Phase_3"]
    phase_outputs := []
    metrics := []
    errors := []
    created_at := "t0"
    updated_at := "t0" }

/-- Claim C2: resumability — starting the Orchestrator on a topic with a
persisted Workspace State must load that state and execute only the
missing phases (4–8 here).  The code violates this: `process_topic` never
calls `load_state`; it mints a fresh workspace and a fresh `State` and
`execute_phases` unconditionally runs all eight phases, re-executing
phases 1–3.  The old state survives untouched in its old workspace, and
the new state's `phases_completed` is rebuilt from scratch. -/
theorem process_topic_ignores_prior_state :
    (processTopic [("projects/w-old", priorState)] [inProgressRow "T" 0]
        "T" "projects/w-new" "t1" "t2" 60).2.2.1 = phaseNames ∧
    phaseNames = ["Phase_1", "Phase_2", "Phase_3", "Phase_4", "Phase_5",
      "Phase_6", "Phase_7", "Phase_8"] ∧
    (processTopic [("projects/w-old", priorState)] [inProgressRow "T" 0]
        "T" "projects/w-new" "t1" "t2" 60).2.2.1
      ≠ ["Phase_4", "Phase_5", "Phase_6", "Phase_7", "Phase_8"] ∧
    dictGet (processTopic [("projects/w-old", priorState)]
        [inProgressRow "T" 0] "T" "projects/w-new" "t1" "t2" 60).1
        "projects/w-old"
      = some priorState ∧
    (dictGet (processTopic [("projects/w-old", priorState)]
        [inProgressRow "T" 0] "T" "projects/w-new" "t1" "t2" 60).1
        "projects/w-new").map State.phases_completed = some phaseNames := by
  exact ⟨rfl, rfl, by decide, rfl, rfl⟩

/-- Claim C3, as stated, is false: it asks that EVERY stale `In_Progress`
job be reset and returned by one `get_next_pending_topic` call.  With a
`Pending` row ahead of a stale row, the call returns the pending topic and
leaves the stale job untouched — still `In_Progress`, timestamp intact. -/
theorem stale_job_not_reclaimed_behind_pending :
    (inProgressRow "B" 0).status = some STATUS_IN_PROGRESS ∧
    (10000 : Int) - 0 > 3600 ∧
    getNextPendingTopic [pendingRow "A", inProgressRow "B" 0] 10000 3600
      = (some "A", [pendingRow "A", inProgressRow "B" 0]) := by
  exact ⟨rfl, by decide, rfl⟩

/-- Claim C3, amended: `get_next_pending_topic` hands out the FIRST row in
sheet order that is claimable — `Pending`, or `In_Progress` with claim age
strictly over `lock_timeout`; only a stale row is reset to `Pending`, and
an `In_Progress` row whose age is within the timeout is never reclaimed:
it survives unchanged in the saved file. -/
theorem get_next_pending_topic_behavior (rows : List Row) (now lt : Int) :
    (getNextPendingTopic rows now lt =
      match firstClaimable now lt rows with
      | none => (none, rows)
      | some (i, r) =>
        (r.topic, if r.status = some STATUS_PENDING then rows
                  else modifyRow rows i (resetStale now))) ∧
    (∀ j r', rows.get? j = some r' →
      r'.status = some STATUS_IN_PROGRESS →
      (∀ t0, r'.tsStart = some t0 → now - t0 ≤ lt) →
      (getNextPendingTopic rows now lt).2.get? j = some r') := by
  refine ⟨getNextPendingTopic_eq rows now lt, ?_⟩
  intro j r' hj hst hts
  rw [getNextPendingTopic_eq rows now lt]
  cases hfc : firstClaimable now lt rows with
  | none => exact hj
  | some p =>
    obtain ⟨i, r⟩ := p
    obtain ⟨hgi, hcl⟩ := firstClaimable_mem now lt rows i r hfc
    by_cases hpend : r.status = some STATUS_PENDING
    · simp only [hpend, if_pos]
      exact hj
    · simp only [hpend, if_neg, if_false]
      have hij : i ≠ j := by
        intro hij
        subst hij
        rw [hgi] at hj
        injection hj with hj
        subst hj
        simp only [claimableRow, Bool.and_eq_true, Bool.or_eq_true,
          decide_eq_true_eq] at hcl
        rcases hcl.2 with hc | hc
        · exact hpend hc
        · rcases hcs : r.tsStart with _ | t0
          · rw [hcs] at hc; simp at hc
          · rw [hcs] at hc
            have := hts t0 hcs
            simp only [decide_eq_true_eq] at hc
            omega
      rw [modifyRow_get?_ne (resetStale now) rows i j hij]
      exact hj

/-- Witness for `get_next_pending_topic_behavior`: an `In_Progress` row
claimed 100 seconds ago survives a poll with a 3600-second timeout. -/
theorem get_next_pending_topic_behavior_witness :
    (getNextPendingTopic [inProgressRow "C" 100] 200 3600).2.get? 0
      = some (inProgressRow "C" 100) := by
  exact (get_next_pending_topic_behavior [inProgressRow "C" 100] 200 3600).2
    0 (inProgressRow "C" 100) rfl rfl
    (fun t0 h => by injection h with h; omega)

/-- The `(current_phase, phases_completed)` projection of the sixteen
snapshots `execute_phases` persists: for each phase, one save taken just
before running it and one just after appending it. -/
def phaseStateTrace : List (String × List String) :=
  (List.range 8).flatMap
    (fun k => [(phaseNames.getD k "", phaseNames.take k),
               (phaseNames.getD k "", phaseNames.take (k + 1))])

/-- Claim C4, as stated, is false: `current_phase` does not always equal
the smallest phase not in `phases_completed`, and it is an ordinary
attribute that callers may set freely.  The second snapshot persisted by
`execute_phases` (right after phase 1 completes) has
`current_phase = "Phase_1"` while `"Phase_1"` is already completed and the
smallest missing phase is `"Phase_2"`; and `State.__init__` accepts any
`current_phase` value independently of `phases_completed`. -/
theorem current_phase_not_derived :
    (((executePhases "t1" (saveState "t1"
        (State.init "T" "w" "Phase_0" none none none none none none
          "t0"))).2.1.get? 1).map State.current_phase = some "Phase_1") ∧
    (((executePhases "t1" (saveState "t1"
        (State.init "T" "w" "Phase_0" none none none none none none
          "t0"))).2.1.get? 1).map State.phases_completed
      = some ["Phase_1"]) ∧
    smallestNotCompleted ["Phase_1"] = some "Phase_2" ∧
    ("Phase_1" : String) ≠ "Phase_2" ∧
    (State.init "T" "w" "Phase_7" none none none none none none
      "t0").current_phase = "Phase_7" ∧
    (State.init "T" "w" "Phase_7" none none none none none none
      "t0").phases_completed = [] := by
  exact ⟨rfl, rfl, rfl, by decide, rfl, rfl⟩

/-- Claim C4, amended: in `execute_phases` the snapshot persisted BEFORE
running a phase satisfies the invariant (`current_phase` is the smallest
phase not yet completed), but the snapshot persisted AFTER the phase keeps
`current_phase` equal to the phase just completed — the last entry of
`phases_completed`, not the smallest missing phase — and `current_phase`
is an ordinary constructor argument, settable independently of
`phases_completed`. -/
theorem execute_phases_phase_trace (topic wp t0 t1 : String) :
    ((executePhases t1 (saveState t1 (State.init topic wp "Phase_0" none
        none none none none none t0))).2.1.map
        (fun s => (s.current_phase, s.phases_completed))) = phaseStateTrace ∧
    (∀ k, k < 8 → ∃ p, phaseStateTrace.get? (2 * k) = some p ∧
      smallestNotCompleted p.2 = some p.1) ∧
    (∀ k, k < 8 → ∃ q, phaseStateTrace.get? (2 * k + 1) = some q ∧
      q.2.getLast? = some q.1 ∧
      (k < 7 → smallestNotCompleted q.2 ≠ some q.1)) ∧
    (State.init topic wp "Phase_7" none none none none none none
      t0).current_phase = "Phase_7" := by
  exact ⟨rfl, by decide, by decide, rfl⟩

/-- Witness for `execute_phases_phase_trace` at concrete strings and
`k = 3`: the snapshot after phase 4 completes names phase 4, not the
smallest missing phase. -/
theorem execute_phases_phase_trace_witness :
    ∃ q, phaseStateTrace.get? 7 = some q ∧ q.2.getLast? = some q.1 ∧
      (3 < 7 → smallestNotCompleted q.2 ≠ some q.1) := by
  have h := (execute_phases_phase_trace "T" "w" "t0" "t1").2.2.1 3
    (by decide)
  simpa using h

/-- Claim C5, as stated, is false: the phase-2 results list is NOT in
submission order.  The collection loop appends results as
`as_completed` yields them; when the second-submitted query finishes
first, the results list starts with it. -/
theorem phase2_results_not_submission_order :
    (phase2Execute echoOutcome [⟨"a", "f"⟩, ⟨"b", "g"⟩] [1, 0]).data.map
        (fun d => d.research_results.map (fun r => r.query))
      = some [⟨"b", "g"⟩, ⟨"a", "f"⟩] ∧
    (some [(⟨"b", "g"⟩ : Query), ⟨"a", "f"⟩] : Option (List Query))
      ≠ some [⟨"a", "f"⟩, ⟨"b", "g"⟩] := by
  exact ⟨rfl, by decide⟩

/-- Claim C5, amended: the results list is in completion order — its
`j`-th entry is the settled result of the sub-query that finished `j`-th —
and every submitted sub-query contributes exactly one entry, so results
can be matched to tasks by content, not by index. -/
theorem phase2_results_in_completion_order
    (o : Query → Except String (String × List String)) (qs : List Query)
    (perm : List Nat) (hne : qs ≠ [])
    (hp : perm.Perm (List.range qs.length)) :
    ∃ d, (phase2Execute o qs perm).data = some d ∧
      d.research_results.length = qs.length ∧
      ∀ j i, perm.get? j = some i →
        d.research_results.get? j = (qs.get? i).map (settleQuery o) := by
  have hlt : ∀ i ∈ perm, i < qs.length := by
    intro i hi
    exact List.mem_range.mp (hp.mem_iff.mp hi)
  have hlen : perm.length = qs.length := by
    rw [hp.length_eq, List.length_range]
  obtain ⟨hl, hg⟩ := filterMap_pick qs (settleQuery o) perm hlt
  have hne' : qs.isEmpty = false := by
    simpa [List.isEmpty_iff] using hne
  simp only [phase2Execute, hne', Bool.false_eq_true, if_false]
  refine ⟨_, rfl, ?_, hg⟩
  rw [hl, hlen]

/-- Witness for `phase2_results_in_completion_order` on two echo queries
completing in reverse order. -/
theorem phase2_results_in_completion_order_witness :
    ∃ d, (phase2Execute echoOutcome [⟨"a", "f"⟩, ⟨"b", "g"⟩] [1, 0]).data
        = some d ∧
      d.research_results.length = 2 ∧
      ∀ j i, [1, 0].get? j = some i →
        d.research_results.get? j
          = ([(⟨"a", "f"⟩ : Query), ⟨"b", "g"⟩].get? i).map
              (settleQuery echoOutcome) := by
  exact phase2_results_in_completion_order echoOutcome
    [⟨"a", "f"⟩, ⟨"b", "g"⟩] [1, 0] (by decide) (by decide)

/-- Claim C6, as stated, is false: `update_status` does not fail with a
not-found outcome for a key lacking an `In_Progress` row — it updates any
row whose topic matches, whatever its status.  A `Pending` row is happily
marked `Completed`. -/
theorem update_status_succeeds_without_in_progress_row :
    (pendingRow "T").status = some STATUS_PENDING ∧
    (pendingRow "T").status ≠ some STATUS_IN_PROGRESS ∧
    updateStatus [pendingRow "T"] "T" STATUS_COMPLETED (some "te") none none
        none none
      = (true, [⟨some "T", some STATUS_COMPLETED, none, some "te", none,
          none, none, none⟩]) := by
  exact ⟨rfl, by decide, rfl⟩

/-- Whatever optional fields are written, `update_status` always writes
the new status value. -/
theorem applyUpdate_status (status : String) (tsEnd : Option String)
    (dur qual : Option Int) (errMsg notes : Option String) (r : Row) :
    (applyUpdate status tsEnd dur qual errMsg notes r).status
      = some status := by
  unfold applyUpdate
  rcases tsEnd with _ | a <;> rcases dur with _ | b <;>
    rcases qual with _ | c <;> rcases errMsg with _ | d <;>
    rcases notes with _ | e <;> simp <;> split_ifs <;> rfl

/-- A non-empty end timestamp handed to `update_status` is written. -/
theorem applyUpdate_tsEnd (status : String) (s : String) (hs : s ≠ "")
    (dur qual : Option Int) (errMsg notes : Option String) (r : Row) :
    (applyUpdate status (some s) dur qual errMsg notes r).tsEnd
      = some s := by
  unfold applyUpdate
  rcases dur with _ | b <;> rcases qual with _ | c <;>
    rcases errMsg with _ | d <;> rcases notes with _ | e <;>
    simp [hs] <;> split_ifs <;> rfl

/-- Claim C6, amended: `update_status` fails — by returning `false` with
the file untouched and an error logged, not by raising — exactly when no
row at all carries the key, whatever the statuses; when a row exists
(whatever its status, `In_Progress` or not) the call returns `true`,
writes the requested terminal status, and writes the completion timestamp
whenever a non-empty one is supplied.  Callers in `workflow.py` discard
the boolean, so the failure is not fatal to them. -/
theorem update_status_behavior (rows : List Row) (name status : String)
    (tsEnd : Option String) (dur qual : Option Int)
    (errMsg notes : Option String) :
    ((updateStatus rows name status tsEnd dur qual errMsg notes).1 = false
      ↔ ∀ r ∈ rows, r.topic ≠ some name) ∧
    ((∀ r ∈ rows, r.topic ≠ some name) →
      (updateStatus rows name status tsEnd dur qual errMsg notes).2
        = rows) ∧
    (∀ i, findTopicRow rows name = some i → ∃ r, rows.get? i = some r ∧
      updateStatus rows name status tsEnd dur qual errMsg notes
        = (true, rows.set i (applyUpdate status tsEnd dur qual errMsg notes
            r)) ∧
      (applyUpdate status tsEnd dur qual errMsg notes r).status
        = some status ∧
      (∀ s, tsEnd = some s → s ≠ "" →
        (applyUpdate status tsEnd dur qual errMsg notes r).tsEnd
          = some s)) := by
  refine ⟨?_, ?_, ?_⟩
  · constructor
    · intro h
      rw [← findTopicRow_none_iff]
      cases hf : findTopicRow rows name with
      | none => rfl
      | some i =>
        rw [updateStatus, hf] at h
        simp at h
    · intro h
      rw [updateStatus, (findTopicRow_none_iff name rows).mpr h]
  · intro h
    rw [updateStatus, (findTopicRow_none_iff name rows).mpr h]
  · intro i hf
    obtain ⟨r, hg, _⟩ := findTopicRow_some name rows i hf
    refine ⟨r, hg, ?_, applyUpdate_status status tsEnd dur qual errMsg notes
      r, ?_⟩
    · rw [updateStatus, hf]
      simp only
      rw [modifyRow_eq_set (applyUpdate status tsEnd dur qual errMsg notes)
          rows i r hg]
    · intro s hse hs
      subst hse
      exact applyUpdate_tsEnd status s hs dur qual errMsg notes r

/-- Witness for `update_status_behavior`: marking the sole `Pending` row
completed writes the status and end timestamp. -/
theorem update_status_behavior_witness :
    ∃ r, [pendingRow "W"].get? 0 = some r ∧
      updateStatus [pendingRow "W"] "W" STATUS_FAILED (some "end") none none
          none none
        = (true, [pendingRow "W"].set 0
            (applyUpdate STATUS_FAILED (some "end") none none none none
              r)) ∧
      (applyUpdate STATUS_FAILED (some "end") none none none none
          r).status = some STATUS_FAILED ∧
      (∀ s, (some "end" : Option String) = some s → s ≠ "" →
        (applyUpdate STATUS_FAILED (some "end") none none none none
            r).tsEnd = some s) := by
  exact (update_status_behavior [pendingRow "W"] "W" STATUS_FAILED
    (some "end") none none none none).2.2 0 rfl

/-- Claim C7: backoff termination — with `max_retries = 3`, a function
failing on every invocation is invoked exactly 3 times and no more; the
last underlying error is raised to the caller, with the attempt count
carried by the final, loudly-logged error line; a function succeeding on
attempt `k ≤ 3` has its value returned after exactly `k` invocations. -/
theorem retry_with_backoff_termination {α : Type} (d factor : Int)
    (fname : String) (err : Nat → String) (f g : Nat → Except String α)
    (k : Nat) (v : α)
    (hf : ∀ i, f i = .error (err i))
    (hk : k < 3) (hg1 : ∀ i, i < k → g i = .error (err i))
    (hg2 : g k = .ok v) :
    (retryWithBackoff 3 d factor fname f).calls = 3 ∧
    (retryWithBackoff 3 d factor fname f).result = .error (some (err 2)) ∧
    (retryWithBackoff 3 d factor fname f).logs.getLast?
      = some (retryFailMsg 3 fname (err 2)) ∧
    (retryWithBackoff 3 d factor fname g).calls = k + 1 ∧
    (retryWithBackoff 3 d factor fname g).result = .ok v := by
  refine ⟨?_, ?_, ?_, ?_, ?_⟩
  · simp [retryWithBackoff, retryGo, hf]
  · simp [retryWithBackoff, retryGo, hf]
  · simp [retryWithBackoff, retryGo, hf]
  · interval_cases k <;> simp_all [retryWithBackoff, retryGo]
  · interval_cases k <;> simp_all [retryWithBackoff, retryGo]

/-- Witness for `retry_with_backoff_termination`: an always-failing call
is tried three times; one failing once then succeeding is tried twice. -/
theorem retry_with_backoff_termination_witness :
    (retryWithBackoff 3 5 2 "call"
        (fun _ => (.error "boom" : Except String Nat))).calls = 3 ∧
    (retryWithBackoff 3 5 2 "call"
        (fun _ => (.error "boom" : Except String Nat))).result
      = .error (some "boom") ∧
    (retryWithBackoff 3 5 2 "call"
        (fun _ => (.error "boom" : Except String Nat))).logs.getLast?
      = some (retryFailMsg 3 "call" "boom") ∧
    (retryWithBackoff 3 5 2 "call"
        (fun i => if i = 0 then .error "boom" else .ok 7)).calls = 2 ∧
    (retryWithBackoff 3 5 2 "call"
        (fun i => if i = 0 then .error "boom" else (.ok 7 :
          Except String Nat))).result = .ok 7 := by
  exact retry_with_backoff_termination 5 2 "call" (fun _ => "boom")
    (fun _ => .error "boom") (fun i => if i = 0 then .error "boom" else .ok 7)
    1 7 (fun _ => rfl) (by decide)
    (fun i hi => by
      have h0 : i = 0 := by omega
      subst h0
      rfl)
    rfl

/-- Claim C8: task isolation in phase 2 — a non-empty sub-query list
always yields a `"completed"` result whose `research_results` holds
exactly one settled entry per sub-query regardless of completion order; a
sub-query whose worker raised contributes an error entry with empty
content instead of aborting the phase; only an empty sub-query list yields
`"failed"`. -/
theorem phase2_task_isolation
    (o : Query → Except String (String × List String)) (qs : List Query)
    (perm : List Nat) (hne : qs ≠ [])
    (hp : perm.Perm (List.range qs.length)) :
    (phase2Execute o qs perm).status = "completed" ∧
    (∃ d, (phase2Execute o qs perm).data = some d ∧
      d.research_results.length = qs.length ∧
      d.research_results.Perm (qs.map (settleQuery o)) ∧
      d.total_queries = qs.length) ∧
    (∀ q e, o q = .error e →
      settleQuery o q = ⟨q, "", [], none, none, some e⟩) ∧
    (phase2Execute o [] perm).status = "failed" := by
  have hne' : qs.isEmpty = false := by
    simpa [List.isEmpty_iff] using hne
  have hlt : ∀ i ∈ perm, i < qs.length := by
    intro i hi
    exact List.mem_range.mp (hp.mem_iff.mp hi)
  have hlen : perm.length = qs.length := by
    rw [hp.length_eq, List.length_range]
  obtain ⟨hl, _⟩ := filterMap_pick qs (settleQuery o) perm hlt
  refine ⟨?_, ?_, ?_, rfl⟩
  · simp [phase2Execute, hne']
  · simp only [phase2Execute, hne', Bool.false_eq_true, if_false]
    refine ⟨_, rfl, ?_, ?_, rfl⟩
    · rw [hl, hlen]
    · have hperm := hp.filterMap
        (fun i => (qs.get? i).map (settleQuery o))
      rw [filterMap_pick_range (settleQuery o) qs] at hperm
      exact hperm
  · intro q e he
    simp [settleQuery, researchQuery, he]

/-- Witness for `phase2_task_isolation`: of two sub-queries completing in
reverse order, one worker raising, the phase still completes with both
entries present. -/
theorem phase2_task_isolation_witness :
    (phase2Execute
        (fun q => if q.focus = "bad" then .error "down"
                  else .ok (q.query, []))
        [⟨"a", "ok"⟩, ⟨"b", "bad"⟩] [1, 0]).status = "completed" ∧
    (∃ d, (phase2Execute
        (fun q => if q.focus = "bad" then .error "down"
                  else .ok (q.query, []))
        [⟨"a", "ok"⟩, ⟨"b", "bad"⟩] [1, 0]).data = some d ∧
      d.research_results.length = 2 ∧
      d.research_results.Perm ([⟨"a", "ok"⟩, ⟨"b", "bad"⟩].map
        (settleQuery (fun q => if q.focus = "bad" then .error "down"
                  else .ok (q.query, [])))) ∧
      d.total_queries = 2) ∧
    (∀ q e, (if q.focus = "bad" then .error "down"
        else (.ok (q.query, []) : Except String (String × List String)))
          = .error e →
      settleQuery (fun q => if q.focus = "bad" then .error "down"
          else .ok (q.query, [])) q = ⟨q, "", [], none, none, some e⟩) ∧
    (phase2Execute (fun q => if q.focus = "bad" then .error "down"
        else .ok (q.query, [])) [] [1, 0]).status = "failed" := by
  exact phase2_task_isolation
    (fun q => if q.focus = "bad" then .error "down" else .ok (q.query, []))
    [⟨"a", "ok"⟩, ⟨"b", "bad"⟩] [1, 0] (by decide) (by decide)

/-- Claim C9: `claim_topic` succeeds — returning `true` after writing
`In_Progress` and the start timestamp — precisely when the first row
carrying the topic reads `Pending` (in a sequential run the read-phase
check and the write-phase re-check see the same file, so both checks
coincide); for a topic that is absent or in any other status it returns
`false` and the persisted file is exactly the one it loaded. -/
theorem claim_topic_behavior (rows : List Row) (name : String) (now : Int) :
    ((claimTopic rows name now).1 = true ↔
      ∃ i, findTopicRow rows name = some i ∧
        rowStatus rows i = some STATUS_PENDING) ∧
    ((claimTopic rows name now).1 = false →
      (claimTopic rows name now).2 = rows) ∧
    (∀ i, findTopicRow rows name = some i →
      rowStatus rows i = some STATUS_PENDING →
      ∃ r, rows.get? i = some r ∧
        claimTopic rows name now = (true, rows.set i (claimWrite now r)) ∧
        (claimWrite now r).status = some STATUS_IN_PROGRESS ∧
        (claimWrite now r).tsStart = some now) := by
  refine ⟨?_, ?_, ?_⟩
  · constructor
    · intro h
      cases hf : findTopicRow rows name with
      | none => rw [claimTopic, hf] at h; simp at h
      | some i =>
        refine ⟨i, rfl, ?_⟩
        by_cases hs : rowStatus rows i = some STATUS_PENDING
        · exact hs
        · rw [claimTopic, hf] at h
          simp [hs] at h
    · rintro ⟨i, hf, hs⟩
      rw [claimTopic, hf]
      simp [hs]
  · intro h
    cases hf : findTopicRow rows name with
    | none => rw [claimTopic, hf]
    | some i =>
      by_cases hs : rowStatus rows i = some STATUS_PENDING
      · rw [claimTopic, hf] at h
        simp [hs] at h
      · rw [claimTopic, hf]
        simp [hs]
  · intro i hf hs
    obtain ⟨r, hg, _⟩ := findTopicRow_some name rows i hf
    refine ⟨r, hg, ?_, rfl, rfl⟩
    rw [claimTopic, hf]
    simp only [hs, ne_eq, not_true_eq_false, if_false]
    rw [modifyRow_eq_set (claimWrite now) rows i r hg]

/-- Witness for `claim_topic_behavior`: claiming the sole `Pending` row
flips it to `In_Progress` with the claim timestamp. -/
theorem claim_topic_behavior_witness :
    ∃ r, [pendingRow "V"].get? 0 = some r ∧
      claimTopic [pendingRow "V"] "V" 42
        = (true, [pendingRow "V"].set 0 (claimWrite 42 r)) ∧
      (claimWrite 42 r).status = some STATUS_IN_PROGRESS ∧
      (claimWrite 42 r).tsStart = some 42 := by
  exact (claim_topic_behavior [pendingRow "V"] "V" 42).2.2 0 rfl rfl

/-- A `State` whose `created_at`/`updated_at` were overwritten with the
empty string after construction (possible in Python by attribute
assignment; `__init__` itself never leaves them empty). -/
def emptyTimestampState : State :=
  ⟨"T", "w", "Phase_0", [], [], [], [], "", ""⟩

/-- Claim C10, as stated over every `State` value, is false on the edge:
`State.__init__` applies Python's `created_at or now`, so an empty-string
timestamp does not survive the round trip — it comes back as the
deserialisation-time clock value. -/
theorem state_roundtrip_fails_on_empty_timestamp :
    emptyTimestampState.created_at = "" ∧
    State.fromDict (State.toDict emptyTimestampState) "2026-01-01"
      ≠ emptyTimestampState := by
  exact ⟨rfl, by decide⟩

/-- Claim C10, amended: for every `State` whose `created_at` and
`updated_at` are non-empty — which covers every state `State.__init__`
can produce, since it replaces falsy timestamps with the current time —
`State.from_dict(State.to_dict(s))` equals `s` in every field. -/
theorem state_to_dict_from_dict_roundtrip (s : State) (now : String)
    (hc : s.created_at ≠ "") (hu : s.updated_at ≠ "") :
    State.fromDict (State.toDict s) now = s := by
  cases s with
  | mk topic wp cp pc po m e ca ua =>
    simp only [ne_eq] at hc hu
    simp [State.toDict, State.fromDict, State.init, pyOrStr, hc, hu]

/-- Witness for `state_to_dict_from_dict_roundtrip` on the prior-state
sample. -/
theorem state_to_dict_from_dict_roundtrip_witness :
    priorState.created_at ≠ "" ∧ priorState.updated_at ≠ "" ∧
    State.fromDict (State.toDict priorState) "t9" = priorState := by
  refine ⟨by decide, by decide, ?_⟩
  exact state_to_dict_from_dict_roundtrip priorState "t9" (by decide)
    (by decide)

end YTDR
